import Mathlib

/-!
Verification of the real-time device-state synchronization layer of the
boneIO web console (React frontend).  The definitions below are a shallow
embedding of the TypeScript source:

* `updateTable`, `applyMessage`, `clearOrKeep` embed the entity-state
  reducer of `src/frontend/src/App.tsx` (the `addMessageListener` callback
  and the clearing effect of `AppContent`);
* the connection-manager state machine embeds
  `src/frontend/src/hooks/useWebSocket.ts` (`setupWebSocket`,
  `closeWebSocket`, the `useWebSocket` effect);
* the availability-prober timing model embeds
  `src/frontend/src/hooks/useApiAvailability.ts`;
* the 401-interceptor model embeds the axios response interceptor and the
  `AuthProvider` context.

JavaScript runtime values that the reducer compares with `===` are modelled
by `JsVal`; strict equality `===` is `jsEq` (note `NaN === NaN` is false).
-/

namespace BoneIO

/-- JS values carried in `state`/`pin` fields of wire payloads
(`string | number` in the TypeScript types).  `nan` models the IEEE NaN
number, which is never `===`-equal to anything, itself included. -/
inductive JsVal where
  | str (s : String)
  | num (q : Rat)
  | nan
  | undef
deriving DecidableEq, Repr, Inhabited

/-- JavaScript strict equality `===` on the modelled value domain. -/
def jsEq : JsVal → JsVal → Bool
  | .str a, .str b => a == b
  | .num a, .num b => a == b
  | .undef, .undef => true
  | _, _ => false

/-- Payload of a `StateUpdate` wire message: the union of the `IOState` and
`SensorState` interfaces of `useWebSocket.ts` (fields absent on one arm are
`Option`s). -/
structure EntityData where
  name : String
  state : JsVal
  id : Option String := none
  unit : Option String := none
  pin : Option JsVal := none
  timestamp : Option Rat := none
  boneio_input : Option String := none
deriving DecidableEq, Repr, Inhabited

/-- A parsed WebSocket message (`StateUpdate` in `useWebSocket.ts`).  The
`type` tag is kept as a raw string because the wire may carry
forward-compatible kinds that the reducer drops. -/
structure StateUpdate where
  type : String
  data : EntityData
deriving DecidableEq, Repr, Inhabited

/-- One entity-table update, embedding the body of each `setOutputs` /
`setInputs` / `setSensors` updater in `App.tsx`:

* `findIndex(o => o.name === message.data.name)` is `findIdx?` on `name`;
* if found and the stored `state` is `===`-equal to the incoming one the
  previous array is returned unchanged (`return prev`);
* if found and changed, the entry at that index is overwritten in a copy
  (`newOutputs[index] = message.data`), i.e. `List.set`;
* if not found the payload is appended (`[...prev, message.data]`). -/
def updateTable (prev : List EntityData) (d : EntityData) : List EntityData :=
  match prev.findIdx? (fun o => o.name == d.name) with
  | some index =>
      if jsEq (prev.getD index default).state d.state then prev
      else prev.set index d
  | none => prev ++ [d]

/-- The three entity tables held by `AppContent` (`useState` arrays). -/
structure AppState where
  outputs : List EntityData
  inputs : List EntityData
  sensors : List EntityData
deriving DecidableEq, Repr, Inhabited

/-- All three tables start empty (`useState([])`). -/
def initialAppState : AppState := ⟨[], [], []⟩

/-- Dispatch of one incoming message on its `type` tag, embedding the
`if`/`else if` chain of the `addMessageListener` callback in `App.tsx`:
`output` and `input` events go to their tables, both `modbus_sensor` and
`sensor` events go to the shared sensors table, anything else is dropped. -/
def applyMessage (s : AppState) (m : StateUpdate) : AppState :=
  if m.type == "output" then { s with outputs := updateTable s.outputs m.data }
  else if m.type == "input" then { s with inputs := updateTable s.inputs m.data }
  else if m.type == "modbus_sensor" || m.type == "sensor" then
    { s with sensors := updateTable s.sensors m.data }
  else s

/-- The clearing effect of `AppContent` (`App.tsx`): when auth is required
and not satisfied, or the API is not available, all three tables are reset
to empty in the same effect run; otherwise they are left alone. -/
def clearOrKeep (isAuthenticated isAuthRequired isApiAvailable : Bool)
    (s : AppState) : AppState :=
  if (!isAuthenticated && isAuthRequired) || !isApiAvailable then initialAppState
  else s

/-- Overwriting an index with the element already stored there is the
identity. -/
lemma set_self_of_getElem {α : Type} (l : List α) (i : Nat) (h : i < l.length) :
    l.set i l[i] = l := by
  apply List.ext_getElem
  · simp
  · intro j h1 h2
    by_cases hij : i = j
    · subst hij; simp
    · rw [List.getElem_set_ne hij]

/-- A successful `findIndex` yields an in-bounds index whose entry's name
matches the incoming payload's name. -/
lemma findIdx?_name_spec (tbl : List EntityData) (d : EntityData) (i : Nat)
    (hfind : tbl.findIdx? (fun o => o.name == d.name) = some i) :
    ∃ h : i < tbl.length, tbl[i].name = d.name := by
  rcases (List.findIdx?_eq_some_iff_getElem).mp hfind with ⟨h, hp, _⟩
  exact ⟨h, by simpa using hp⟩

/-- Found entry with `===`-equal state: the reducer returns `prev` itself. -/
lemma updateTable_eq_of_noop (tbl : List EntityData) (d : EntityData) (i : Nat)
    (hfind : tbl.findIdx? (fun o => o.name == d.name) = some i)
    (heq : jsEq (tbl.getD i default).state d.state = true) :
    updateTable tbl d = tbl := by
  rw [List.getD_eq_getElem?_getD] at heq
  simp [updateTable, hfind, heq]

/-- Found entry with changed state: the reducer overwrites index `i`. -/
lemma updateTable_eq_set (tbl : List EntityData) (d : EntityData) (i : Nat)
    (hfind : tbl.findIdx? (fun o => o.name == d.name) = some i)
    (hne : jsEq (tbl.getD i default).state d.state = false) :
    updateTable tbl d = tbl.set i d := by
  rw [List.getD_eq_getElem?_getD] at hne
  simp [updateTable, hfind, hne]

/-- No entry with a matching name: the reducer appends the payload. -/
lemma updateTable_eq_append (tbl : List EntityData) (d : EntityData)
    (hnone : tbl.findIdx? (fun o => o.name == d.name) = none) :
    updateTable tbl d = tbl ++ [d] := by
  simp [updateTable, hnone]

/-- When the name is already present, an update leaves the list of names
unchanged (replace-in-place never reorders nor changes keys). -/
lemma map_name_updateTable_found (tbl : List EntityData) (d : EntityData) (i : Nat)
    (hfind : tbl.findIdx? (fun o => o.name == d.name) = some i) :
    (updateTable tbl d).map EntityData.name = tbl.map EntityData.name := by
  rcases findIdx?_name_spec tbl d i hfind with ⟨hlen, hname⟩
  cases heq : jsEq (tbl.getD i default).state d.state with
  | true => rw [updateTable_eq_of_noop tbl d i hfind heq]
  | false =>
      rw [updateTable_eq_set tbl d i hfind heq, List.map_set]
      have hlen2 : i < (tbl.map EntityData.name).length := by simpa using hlen
      have hd : d.name = (tbl.map EntityData.name)[i] := by
        simp [List.getElem_map, hname]
      rw [hd, set_self_of_getElem _ _ hlen2]

/-- One reducer step preserves uniqueness of names in a table. -/
lemma nodup_names_updateTable (tbl : List EntityData) (d : EntityData)
    (h : (tbl.map EntityData.name).Nodup) :
    ((updateTable tbl d).map EntityData.name).Nodup := by
  cases hfind : tbl.findIdx? (fun o => o.name == d.name) with
  | some i => rw [map_name_updateTable_found tbl d i hfind]; exact h
  | none =>
      rw [updateTable_eq_append tbl d hfind]
      have hnotin : d.name ∉ tbl.map EntityData.name := by
        intro hmem
        rcases List.mem_map.mp hmem with ⟨x, hx, hxname⟩
        have := (List.findIdx?_eq_none_iff.mp hfind) x hx
        simp [hxname] at this
      simp [List.nodup_append, h]
      intro x hx hxd
      exact hnotin (hxd ▸ List.mem_map_of_mem EntityData.name hx)

/-- All three tables have pairwise-distinct names. -/
def tablesNodup (s : AppState) : Prop :=
  (s.outputs.map EntityData.name).Nodup ∧
  (s.inputs.map EntityData.name).Nodup ∧
  (s.sensors.map EntityData.name).Nodup

/-- Dispatching one message preserves name-uniqueness of every table. -/
lemma tablesNodup_applyMessage (s : AppState) (m : StateUpdate)
    (h : tablesNodup s) : tablesNodup (applyMessage s m) := by
  obtain ⟨h1, h2, h3⟩ := h
  unfold applyMessage
  split
  · exact ⟨nodup_names_updateTable _ _ h1, h2, h3⟩
  · split
    · exact ⟨h1, nodup_names_updateTable _ _ h2, h3⟩
    · split
      · exact ⟨h1, h2, nodup_names_updateTable _ _ h3⟩
      · exact ⟨h1, h2, h3⟩

/-- Name-uniqueness holds after any fold of messages over a unique-named
start state. -/
lemma tablesNodup_foldl (msgs : List StateUpdate) :
    ∀ s : AppState, tablesNodup s → tablesNodup (msgs.foldl applyMessage s) := by
  induction msgs with
  | nil => intro s h; exact h
  | cons m rest ih =>
      intro s h
      exact ih (applyMessage s m) (tablesNodup_applyMessage s m h)

example :
    updateTable [] { name := "relay1", state := .str "ON" } =
      [{ name := "relay1", state := .str "ON" }] := by decide

example :
    updateTable [{ name := "relay1", state := .str "ON" }]
      { name := "relay1", state := .str "ON", timestamp := some 5 } =
      [{ name := "relay1", state := .str "ON" }] := by decide

example :
    updateTable [{ name := "relay1", state := .str "ON" }]
      { name := "relay1", state := .str "OFF" } =
      [{ name := "relay1", state := .str "OFF" }] := by decide

/-- The incoming payload hits an existing entry whose stored state is
`===`-equal to the incoming state (the no-op situation of the reducer). -/
def noopHit (tbl : List EntityData) (d : EntityData) : Prop :=
  ∃ i, tbl.findIdx? (fun o => o.name == d.name) = some i ∧
       jsEq (tbl.getD i default).state d.state = true

/-- Claim C1: for every entity table (outputs, inputs, sensors) and every
incoming `StateUpdateEvent` whose kind maps to that table, if the table
already holds an entry whose key matches the event's payload and that
entry's state equals the event's state, applying the event returns the
identical table: `applyMessage s m = s`, the reducer hands back `prev`
itself, so no new array is allocated. -/
theorem stateUpdate_noop_keeps_table_reference (s : AppState) (m : StateUpdate) :
    (m.type = "output" → noopHit s.outputs m.data → applyMessage s m = s) ∧
    (m.type = "input" → noopHit s.inputs m.data → applyMessage s m = s) ∧
    ((m.type = "sensor" ∨ m.type = "modbus_sensor") →
       noopHit s.sensors m.data → applyMessage s m = s) := by
  refine ⟨?_, ?_, ?_⟩
  · rintro htype ⟨i, hfind, heq⟩
    simp [applyMessage, htype, updateTable_eq_of_noop _ _ _ hfind heq]
  · rintro htype ⟨i, hfind, heq⟩
    simp [applyMessage, htype, updateTable_eq_of_noop _ _ _ hfind heq]
  · rintro (htype | htype) ⟨i, hfind, heq⟩ <;>
      simp [applyMessage, htype, updateTable_eq_of_noop _ _ _ hfind heq]

/-- Concrete instance of C1 on all three tables: unchanged state leaves the
state record identical. -/
theorem stateUpdate_noop_keeps_table_reference_witness :
    applyMessage ⟨[{ name := "relay1", state := .str "ON" }], [], []⟩
        ⟨"output", { name := "relay1", state := .str "ON", timestamp := some 2 }⟩ =
      ⟨[{ name := "relay1", state := .str "ON" }], [], []⟩ ∧
    applyMessage ⟨[], [{ name := "in1", state := .str "pressed" }], []⟩
        ⟨"input", { name := "in1", state := .str "pressed" }⟩ =
      ⟨[], [{ name := "in1", state := .str "pressed" }], []⟩ ∧
    applyMessage ⟨[], [], [{ name := "temp", state := .num 21 }]⟩
        ⟨"sensor", { name := "temp", state := .num 21, id := some "x" }⟩ =
      ⟨[], [], [{ name := "temp", state := .num 21 }]⟩ :=
  ⟨(stateUpdate_noop_keeps_table_reference _ _).1 rfl ⟨0, by decide, by decide⟩,
   (stateUpdate_noop_keeps_table_reference _ _).2.1 rfl ⟨0, by decide, by decide⟩,
   (stateUpdate_noop_keeps_table_reference _ _).2.2 (Or.inl rfl) ⟨0, by decide, by decide⟩⟩

/-- Claim C10: when a no-op update is detected (known key, `===`-equal
state), the whole incoming payload is discarded: the stored entry keeps
every field it had before the event — timestamp, unit, pin, id included —
whatever the incoming payload carries in those fields. -/
theorem noop_discards_entire_payload (tbl : List EntityData) (d : EntityData)
    (i : Nat) (hfind : tbl.findIdx? (fun o => o.name == d.name) = some i)
    (heq : jsEq (tbl.getD i default).state d.state = true) :
    updateTable tbl d = tbl ∧
    (updateTable tbl d).getD i default = tbl.getD i default ∧
    ((updateTable tbl d).getD i default).timestamp = (tbl.getD i default).timestamp ∧
    ((updateTable tbl d).getD i default).unit = (tbl.getD i default).unit ∧
    ((updateTable tbl d).getD i default).pin = (tbl.getD i default).pin ∧
    ((updateTable tbl d).getD i default).id = (tbl.getD i default).id := by
  have h := updateTable_eq_of_noop tbl d i hfind heq
  simp [h]

/-- Concrete instance of C10: the incoming payload differs in timestamp,
unit, pin and id, yet the stored entry is byte-for-byte the old one. -/
theorem noop_discards_entire_payload_witness :
    updateTable
        [{ name := "temp", state := .num 21, id := some "a", unit := some "C",
           pin := some (.num 3), timestamp := some 1 }]
        { name := "temp", state := .num 21, id := some "b", unit := some "F",
          pin := some (.str "P9"), timestamp := some 99 } =
      [{ name := "temp", state := .num 21, id := some "a", unit := some "C",
         pin := some (.num 3), timestamp := some 1 }] ∧
    (updateTable
        [{ name := "temp", state := .num 21, id := some "a", unit := some "C",
           pin := some (.num 3), timestamp := some 1 }]
        { name := "temp", state := .num 21, id := some "b", unit := some "F",
          pin := some (.str "P9"), timestamp := some 99 }).getD 0 default =
      { name := "temp", state := .num 21, id := some "a", unit := some "C",
        pin := some (.num 3), timestamp := some 1 } :=
  have h := noop_discards_entire_payload
    [{ name := "temp", state := .num 21, id := some "a", unit := some "C",
       pin := some (.num 3), timestamp := some 1 }]
    { name := "temp", state := .num 21, id := some "b", unit := some "F",
      pin := some (.str "P9"), timestamp := some 99 } 0 (by decide) (by decide)
  ⟨h.1, h.2.1.trans (by decide)⟩

/-- Claim C9: the tables are keyed solely by the payload's `name`, never by
`id`: sensor and modbus_sensor events share one sensors table, the lookup
depends only on `name`, an event whose name is already present never grows
the table, and concretely a `sensor` and a `modbus_sensor` event sharing a
name but with distinct ids collapse into the single entry of the shared
sensors table. -/
theorem tables_keyed_by_name_not_id :
    (∀ (s : AppState) (m : StateUpdate),
       (m.type = "sensor" ∨ m.type = "modbus_sensor") →
       applyMessage s m = { s with sensors := updateTable s.sensors m.data }) ∧
    (∀ (tbl : List EntityData) (d e : EntityData), d.name = e.name →
       tbl.findIdx? (fun o => o.name == d.name) =
         tbl.findIdx? (fun o => o.name == e.name)) ∧
    (∀ (tbl : List EntityData) (d : EntityData), (∃ x ∈ tbl, x.name = d.name) →
       (updateTable tbl d).length = tbl.length) ∧
    applyMessage (applyMessage initialAppState
        ⟨"sensor", { name := "temp", state := .num 1, id := some "a" }⟩)
        ⟨"modbus_sensor", { name := "temp", state := .num 2, id := some "b" }⟩ =
      ⟨[], [], [{ name := "temp", state := .num 2, id := some "b" }]⟩ := by
  refine ⟨?_, ?_, ?_, by decide⟩
  · rintro s m (htype | htype) <;> simp [applyMessage, htype]
  · intro tbl d e h
    rw [h]
  · intro tbl d hx
    cases hfind : tbl.findIdx? (fun o => o.name == d.name) with
    | none =>
        exfalso
        rcases hx with ⟨x, hmem, hname⟩
        have := (List.findIdx?_eq_none_iff.mp hfind) x hmem
        simp [hname] at this
    | some i =>
        cases heq : jsEq (tbl.getD i default).state d.state with
        | true => rw [updateTable_eq_of_noop tbl d i hfind heq]
        | false => rw [updateTable_eq_set tbl d i hfind heq, List.length_set]

/-- Concrete instance of C9's universally quantified parts: dispatch of a
sensor event, name-only lookup with differing ids, and no growth on a name
hit. -/
theorem tables_keyed_by_name_not_id_witness :
    applyMessage ⟨[], [], []⟩ ⟨"sensor", { name := "temp", state := .num 1 }⟩ =
      ⟨[], [], updateTable [] { name := "temp", state := .num 1 }⟩ ∧
    ([{ name := "temp", state := JsVal.num 1, id := some "a" }] : List EntityData).findIdx?
        (fun o => o.name == ({ name := "temp", state := JsVal.num 2, id := some "b" } : EntityData).name) =
      ([{ name := "temp", state := JsVal.num 1, id := some "a" }] : List EntityData).findIdx?
        (fun o => o.name == ({ name := "temp", state := JsVal.num 3, id := some "c" } : EntityData).name) ∧
    (updateTable [{ name := "temp", state := JsVal.num 1, id := some "a" }]
        { name := "temp", state := JsVal.num 2, id := some "b" }).length =
      ([{ name := "temp", state := JsVal.num 1, id := some "a" }] : List EntityData).length :=
  ⟨tables_keyed_by_name_not_id.1 ⟨[], [], []⟩ ⟨"sensor", { name := "temp", state := .num 1 }⟩ (Or.inl rfl),
   tables_keyed_by_name_not_id.2.1 _ _ _ rfl,
   tables_keyed_by_name_not_id.2.2.1 _ _
     ⟨{ name := "temp", state := JsVal.num 1, id := some "a" }, by decide, rfl⟩⟩

/-- Claim C2: from empty tables, every fold of state-update events keeps
each key (name) unique per table; an event hitting a known key keeps the
table's length and every other position untouched (replacing the hit index
when the state changed, leaving the table identical when it did not); an
event for an unknown key appends at the end, leaving existing entries'
relative order undisturbed. -/
theorem entity_table_invariants :
    (∀ msgs : List StateUpdate,
       tablesNodup (msgs.foldl applyMessage initialAppState)) ∧
    (∀ (tbl : List EntityData) (d : EntityData) (i : Nat),
       tbl.findIdx? (fun o => o.name == d.name) = some i →
       (updateTable tbl d).length = tbl.length ∧
       (∀ j, j ≠ i → (updateTable tbl d).getD j default = tbl.getD j default) ∧
       (jsEq (tbl.getD i default).state d.state = false →
          (updateTable tbl d).getD i default = d) ∧
       (jsEq (tbl.getD i default).state d.state = true → updateTable tbl d = tbl)) ∧
    (∀ (tbl : List EntityData) (d : EntityData),
       tbl.findIdx? (fun o => o.name == d.name) = none →
       updateTable tbl d = tbl ++ [d]) := by
  refine ⟨?_, ?_, updateTable_eq_append⟩
  · intro msgs
    exact tablesNodup_foldl msgs initialAppState (by simp [tablesNodup, initialAppState])
  · intro tbl d i hfind
    rcases findIdx?_name_spec tbl d i hfind with ⟨hlen, _⟩
    refine ⟨?_, ?_, ?_, updateTable_eq_of_noop tbl d i hfind⟩
    · cases heq : jsEq (tbl.getD i default).state d.state with
      | true => rw [updateTable_eq_of_noop tbl d i hfind heq]
      | false => rw [updateTable_eq_set tbl d i hfind heq, List.length_set]
    · intro j hj
      cases heq : jsEq (tbl.getD i default).state d.state with
      | true => rw [updateTable_eq_of_noop tbl d i hfind heq]
      | false =>
          rw [updateTable_eq_set tbl d i hfind heq,
            List.getD_eq_getElem?_getD, List.getD_eq_getElem?_getD,
            List.getElem?_set_ne (Ne.symm hj)]
    · intro heq
      rw [updateTable_eq_set tbl d i hfind heq,
        List.getD_eq_getElem?_getD, List.getElem?_set]
      simp [hlen]

/-- Concrete instance of C2: a two-entry table updated at key `x` keeps its
length and the untouched position, stores the new payload at the hit index,
and an unknown key appends. -/
theorem entity_table_invariants_witness :
    tablesNodup ([⟨"output", { name := "x", state := .str "ON" }⟩].foldl
      applyMessage initialAppState) ∧
    (updateTable
        [{ name := "x", state := .str "ON" }, { name := "y", state := .str "OFF" }]
        { name := "x", state := .str "OFF" }).length =
      ([{ name := "x", state := .str "ON" }, { name := "y", state := .str "OFF" }] :
        List EntityData).length ∧
    (updateTable
        [{ name := "x", state := .str "ON" }, { name := "y", state := .str "OFF" }]
        { name := "x", state := .str "OFF" }).getD 1 default =
      ([{ name := "x", state := .str "ON" }, { name := "y", state := .str "OFF" }] :
        List EntityData).getD 1 default ∧
    (updateTable
        [{ name := "x", state := .str "ON" }, { name := "y", state := .str "OFF" }]
        { name := "x", state := .str "OFF" }).getD 0 default =
      { name := "x", state := .str "OFF" } ∧
    updateTable [{ name := "x", state := .str "ON" }] { name := "z", state := .str "1" } =
      [{ name := "x", state := .str "ON" }] ++ [{ name := "z", state := .str "1" }] :=
  have h := entity_table_invariants.2.1
    [{ name := "x", state := .str "ON" }, { name := "y", state := .str "OFF" }]
    { name := "x", state := .str "OFF" } 0 (by decide)
  ⟨entity_table_invariants.1 [⟨"output", { name := "x", state := .str "ON" }⟩],
   h.1, h.2.1 1 (by decide), h.2.2.1 (by decide),
   entity_table_invariants.2.2
     [{ name := "x", state := .str "ON" }] { name := "z", state := .str "1" } (by decide)⟩

/-- Claim C5: whenever authentication is required and not satisfied, or
availability is down, the clearing effect resets all three entity tables to
empty in one step, so no stale privileged entity state remains. -/
theorem logout_or_unavailable_clears_tables
    (isAuthenticated isAuthRequired isApiAvailable : Bool) (s : AppState)
    (h : (isAuthenticated = false ∧ isAuthRequired = true) ∨ isApiAvailable = false) :
    clearOrKeep isAuthenticated isAuthRequired isApiAvailable s = initialAppState ∧
    (clearOrKeep isAuthenticated isAuthRequired isApiAvailable s).outputs = [] ∧
    (clearOrKeep isAuthenticated isAuthRequired isApiAvailable s).inputs = [] ∧
    (clearOrKeep isAuthenticated isAuthRequired isApiAvailable s).sensors = [] := by
  rcases h with ⟨h1, h2⟩ | h1 <;> subst h1 <;>
    simp_all [clearOrKeep, initialAppState]

/-- Concrete instance of C5: a logged-out session with auth required drops a
populated state record to the empty tables. -/
theorem logout_or_unavailable_clears_tables_witness :
    clearOrKeep false true true
        ⟨[{ name := "relay1", state := .str "ON" }], [],
         [{ name := "temp", state := .num 21 }]⟩ = initialAppState ∧
    clearOrKeep true true false
        ⟨[{ name := "relay1", state := .str "ON" }], [], []⟩ = initialAppState :=
  ⟨(logout_or_unavailable_clears_tables false true true _ (Or.inl ⟨rfl, rfl⟩)).1,
   (logout_or_unavailable_clears_tables true true false _ (Or.inr rfl)).1⟩

/-- Ceiling on reconnect attempts (`MAX_RECONNECT_ATTEMPTS` in
`useWebSocket.ts`). -/
def MAX_RECONNECT_ATTEMPTS : Nat := 30

/-- Constant reconnect delay in milliseconds (`RECONNECT_DELAY`). -/
def RECONNECT_DELAY : Nat := 5000

/-- The module-scoped mutable state of the WebSocket singleton in
`useWebSocket.ts`: `globalWs` (existence), `globalConnecting`,
`globalPingInterval` (activity), `globalReconnectAttempts`,
`activeConnections`, and the error surfaced through `setError`. -/
structure MgrState where
  wsExists : Bool
  connecting : Bool
  pingActive : Bool
  reconnectAttempts : Nat
  activeConnections : Nat
  error : Option String
deriving DecidableEq, Repr, Inhabited

/-- Module load: no socket, no timers, zero counters. -/
def initialMgrState : MgrState := ⟨false, false, false, 0, 0, none⟩

/-- Observable transitions of the connection manager: the socket's `onopen`
and `onclose` handlers firing, a hook instance mounting (the `useEffect`
body incrementing `activeConnections`), and one unmounting (the cleanup
decrementing it). -/
inductive MgrEvent where
  | sockOpen
  | sockClose
  | subscribe
  | unsubscribe
deriving DecidableEq, Repr

/-- `closeWebSocket` in `useWebSocket.ts`: closes and drops the socket,
clears the ping interval and the listener set, and zeroes `connecting`,
`reconnectAttempts` and `activeConnections`.  The error slot is untouched
(`setError` is not called). -/
def closeWebSocket (s : MgrState) : MgrState :=
  { s with wsExists := false, pingActive := false, connecting := false,
           reconnectAttempts := 0, activeConnections := 0 }

/-- One transition of the manager.  The second component is the reconnect
timer scheduled by this transition, if any (`setTimeout(...,
RECONNECT_DELAY)` in the `onclose` handler):

* `sockOpen` embeds the `onopen` handler: clear the error, drop the
  connecting flag, reset the attempt counter, start the ping interval;
* `sockClose` embeds the `onclose` handler: stop the ping, drop the socket;
  with a subscriber present and the counter below the ceiling, increment
  and schedule exactly one reconnect after `RECONNECT_DELAY`; at the
  ceiling, surface the terminal error and schedule nothing; with zero
  subscribers, do nothing more;
* `subscribe` embeds `activeConnections++` in the `useEffect` body;
* `unsubscribe` embeds the cleanup: `activeConnections--`, and when it
  reaches zero, full teardown via `closeWebSocket`. -/
def step (s : MgrState) (e : MgrEvent) : MgrState × Option Nat :=
  match e with
  | .sockOpen =>
      ({ s with error := none, connecting := false, reconnectAttempts := 0,
                wsExists := true, pingActive := true }, none)
  | .sockClose =>
      let s1 : MgrState :=
        { s with pingActive := false, wsExists := false, connecting := false }
      if s.activeConnections > 0 ∧ s.reconnectAttempts < MAX_RECONNECT_ATTEMPTS then
        ({ s1 with reconnectAttempts := s.reconnectAttempts + 1 }, some RECONNECT_DELAY)
      else if s.reconnectAttempts ≥ MAX_RECONNECT_ATTEMPTS then
        ({ s1 with error := some "WebSocket connection failed after multiple attempts" },
         none)
      else (s1, none)
  | .subscribe => ({ s with activeConnections := s.activeConnections + 1 }, none)
  | .unsubscribe =>
      if s.activeConnections - 1 = 0 then
        (closeWebSocket { s with activeConnections := s.activeConnections - 1 }, none)
      else ({ s with activeConnections := s.activeConnections - 1 }, none)

/-- The manager state after a sequence of events from module load. -/
def runMgr (evs : List MgrEvent) : MgrState :=
  evs.foldl (fun s e => (step s e).1) initialMgrState

/-- One step never pushes the attempt counter above the ceiling. -/
lemma step_reconnectAttempts_le (s : MgrState) (e : MgrEvent)
    (h : s.reconnectAttempts ≤ MAX_RECONNECT_ATTEMPTS) :
    (step s e).1.reconnectAttempts ≤ MAX_RECONNECT_ATTEMPTS := by
  cases e with
  | sockOpen => simp [step]
  | sockClose =>
      simp only [step]
      split
      · next hc => simpa using hc.2
      · split <;> simpa using h
  | subscribe => simpa [step] using h
  | unsubscribe =>
      simp only [step]
      split
      · simp [closeWebSocket]
      · simpa using h


/-- The ceiling invariant propagates through any event fold. -/
lemma foldl_reconnectAttempts_le (evs : List MgrEvent) :
    ∀ s : MgrState, s.reconnectAttempts ≤ MAX_RECONNECT_ATTEMPTS →
      (evs.foldl (fun s e => (step s e).1) s).reconnectAttempts ≤
        MAX_RECONNECT_ATTEMPTS := by
  induction evs with
  | nil => intro s h; exact h
  | cons e rest ih =>
      intro s h
      exact ih _ (step_reconnectAttempts_le s e h)

/-- Claim C3: along every event sequence from module load the reconnect
counter stays at or below the ceiling of 30; a socket close with at least
one subscriber and the counter below the ceiling schedules exactly one
reconnect after the constant 5000 ms delay and increments the counter; at
the ceiling a close schedules nothing; a successful open resets the counter
to zero, and so does the teardown run when the last subscriber
unsubscribes. -/
theorem reconnect_counter_bounded :
    (∀ evs : List MgrEvent,
       (runMgr evs).reconnectAttempts ≤ MAX_RECONNECT_ATTEMPTS) ∧
    (∀ s : MgrState, s.activeConnections > 0 →
       s.reconnectAttempts < MAX_RECONNECT_ATTEMPTS →
       (step s .sockClose).2 = some RECONNECT_DELAY ∧
       (step s .sockClose).1.reconnectAttempts = s.reconnectAttempts + 1) ∧
    (∀ s : MgrState, s.reconnectAttempts ≥ MAX_RECONNECT_ATTEMPTS →
       (step s .sockClose).2 = none) ∧
    (∀ s : MgrState, (step s .sockOpen).1.reconnectAttempts = 0) ∧
    (∀ s : MgrState, s.activeConnections = 1 →
       (step s .unsubscribe).1.reconnectAttempts = 0 ∧
       (step s .unsubscribe).1.activeConnections = 0) := by
  refine ⟨?_, ?_, ?_, ?_, ?_⟩
  · intro evs
    exact foldl_reconnectAttempts_le evs initialMgrState (by simp [initialMgrState])
  · intro s h1 h2
    constructor <;> simp [step, h1, h2]
  · intro s h
    have h2 : ¬ s.reconnectAttempts < MAX_RECONNECT_ATTEMPTS := by omega
    simp [step, h2, h]
  · intro s
    simp [step]
  · intro s h
    constructor <;> simp [step, h, closeWebSocket]
  
/-- Concrete instance of C3's hypothetical parts: a close with one
subscriber and a zero counter schedules one 5000 ms reconnect; a close at
the 30-attempt ceiling schedules nothing; the last unsubscribe zeroes the
counter. -/
theorem reconnect_counter_bounded_witness :
    (step ⟨true, false, true, 0, 1, none⟩ .sockClose).2 = some RECONNECT_DELAY ∧
    (step ⟨true, false, true, 0, 1, none⟩ .sockClose).1.reconnectAttempts = 1 ∧
    (step ⟨false, false, false, 30, 1, none⟩ .sockClose).2 = none ∧
    (step ⟨false, false, false, 7, 1, none⟩ .unsubscribe).1.reconnectAttempts = 0 :=
  ⟨(reconnect_counter_bounded.2.1 ⟨true, false, true, 0, 1, none⟩
      (by decide) (by decide)).1,
   (reconnect_counter_bounded.2.1 ⟨true, false, true, 0, 1, none⟩
      (by decide) (by decide)).2,
   reconnect_counter_bounded.2.2.1 ⟨false, false, false, 30, 1, none⟩ (by decide),
   (reconnect_counter_bounded.2.2.2.2 ⟨false, false, false, 7, 1, none⟩ rfl).1⟩

/-- One registered subscriber callback (`globalMessageListeners` entry).
`throws` records whether invoking the callback raises; the registry is kept
as a list in registration order (a JS `Set` iterates in insertion order). -/
structure Listener where
  id : Nat
  throws : Bool
deriving DecidableEq, Repr

/-- Invoking one subscriber callback with a parsed message: it either
returns normally or raises. -/
def invokeListener (l : Listener) (_m : StateUpdate) : Except String Unit :=
  if l.throws then Except.error "Error in message listener" else Except.ok ()

/-- The `globalMessageListeners.forEach` loop of the `onmessage` handler:
each callback is invoked with the message inside its own `try`; a raised
error is caught (and logged), so the loop proceeds to the remaining
listeners either way.  Returns the ids of the listeners the message was
delivered to, in iteration order. -/
def fanOut (ls : List Listener) (m : StateUpdate) : List Nat :=
  match ls with
  | [] => []
  | l :: rest =>
      match invokeListener l m with
      | Except.ok _ => l.id :: fanOut rest m
      | Except.error _ => l.id :: fanOut rest m

/-- One incoming WebSocket frame as seen by the `onmessage` handler: the
literal text `pong`, a frame that `JSON.parse` turns into a `StateUpdate`,
or a frame on which `JSON.parse` throws. -/
inductive RawFrame where
  | pong
  | parsed (m : StateUpdate)
  | malformed (s : String)
deriving DecidableEq, Repr

/-- The `onmessage` handler of `setupWebSocket`: `pong` returns before the
parse; a parse failure is caught by the surrounding `try` and only logged;
a parsed message is fanned out to every listener.  The handler touches no
connection state, so the manager state is passed through unchanged. -/
def onMessage (s : MgrState) (ls : List Listener) (raw : RawFrame) :
    MgrState × List Nat :=
  match raw with
  | .pong => (s, [])
  | .parsed m => (s, fanOut ls m)
  | .malformed _ => (s, [])

/-- Fan-out reaches every registered listener in order, whether or not any
callback throws. -/
lemma fanOut_eq_map_id (ls : List Listener) (m : StateUpdate) :
    fanOut ls m = ls.map Listener.id := by
  induction ls with
  | nil => rfl
  | cons l rest ih =>
      cases hl : invokeListener l m <;> simp [fanOut, hl, ih]

/-- Claim C4: a literal `pong` frame is delivered to no subscriber; a frame
that fails to parse is delivered to no subscriber and leaves the connection
state unchanged; a parsed message is delivered to every registered
subscriber in registration order; and a subscriber whose callback throws
does not prevent delivery to the listeners after it. -/
theorem message_fanout_isolated (s : MgrState) (ls : List Listener) :
    onMessage s ls .pong = (s, []) ∧
    (∀ str, onMessage s ls (.malformed str) = (s, [])) ∧
    (∀ m, onMessage s ls (.parsed m) = (s, ls.map Listener.id)) ∧
    (∀ (m : StateUpdate) (l : Listener) (pre post : List Listener),
       invokeListener l m = Except.error "Error in message listener" →
       fanOut (pre ++ l :: post) m =
         pre.map Listener.id ++ l.id :: post.map Listener.id) := by
  refine ⟨rfl, fun _ => rfl, ?_, ?_⟩
  · intro m
    simp [onMessage, fanOut_eq_map_id]
  · intro m l pre post _
    simp [fanOut_eq_map_id]

/-- Concrete instance of C4's hypothetical part: listener 1 throws, yet
listeners 2 and 3 after it still receive the message. -/
theorem message_fanout_isolated_witness :
    fanOut [⟨0, false⟩, ⟨1, true⟩, ⟨2, false⟩, ⟨3, false⟩]
        ⟨"output", { name := "relay1", state := .str "ON" }⟩ =
      [0, 1, 2, 3] :=
  (message_fanout_isolated initialMgrState []).2.2.2
    ⟨"output", { name := "relay1", state := .str "ON" }⟩ ⟨1, true⟩
    [⟨0, false⟩] [⟨2, false⟩, ⟨3, false⟩] rfl

/-- `baseUrl.replace(/^http/, 'ws')` in `setupWebSocket`: an anchored
regex, so only a leading `http` is rewritten to `ws` (turning `http://...`
into `ws://...` and `https://...` into `wss://...`); any other base URL is
left as it is.  A JS string is a character sequence, so the anchored match
and the splice are expressed on the string's character list. -/
def httpToWsScheme (baseUrl : String) : String :=
  if baseUrl.data.take 4 = "http".data then "ws" ++ String.mk (baseUrl.data.drop 4)
  else baseUrl

/-- The WebSocket endpoint built by `setupWebSocket`:
the scheme-swapped base URL followed by the literal path `/ws/state`. -/
def wsTarget (baseUrl : String) : String :=
  httpToWsScheme baseUrl ++ "/ws/state"

/-- `isAuthRequired && localStorage.getItem('token') || null`: the token is
used only when auth is required and a non-empty string is stored (an empty
string is falsy in JS, hence treated as absent). -/
def tokenForConnect (isAuthRequired : Bool) (stored : Option String) :
    Option String :=
  if isAuthRequired then
    match stored with
    | some t => if t = "" then none else some t
    | none => none
  else none

/-- The `protocols` argument of `new WebSocket(wsUrl, protocols)`:
`[`token.${token}`]` when a token was selected, `undefined` otherwise. -/
def wsProtocols (isAuthRequired : Bool) (stored : Option String) :
    Option (List String) :=
  (tokenForConnect isAuthRequired stored).map (fun t => ["token." ++ t])

/-- Claim C7: `connect()` targets the configured base URL with a leading
`http` swapped to `ws` (so `http`→`ws` and `https`→`wss`) plus the path
`/ws/state`; with auth required and a credential stored it passes exactly
one subprotocol `token.<value>`; with auth not required or no credential
stored it passes none. -/
theorem connect_url_and_subprotocol :
    (∀ baseUrl : String, baseUrl.data.take 4 = "http".data →
       wsTarget baseUrl = "ws" ++ String.mk (baseUrl.data.drop 4) ++ "/ws/state") ∧
    wsTarget "http://device.local" = "ws://device.local/ws/state" ∧
    wsTarget "https://device.local" = "wss://device.local/ws/state" ∧
    (∀ t : String, t ≠ "" → wsProtocols true (some t) = some ["token." ++ t]) ∧
    (∀ stored : Option String, wsProtocols false stored = none) ∧
    wsProtocols true none = none := by
  refine ⟨?_, by decide, by decide, ?_, ?_, rfl⟩
  · intro baseUrl h
    simp [wsTarget, httpToWsScheme, h]
  · intro t ht
    simp [wsProtocols, tokenForConnect, ht]
  · intro stored
    simp [wsProtocols, tokenForConnect]

/-- Concrete instance of C7's hypothetical parts: a numeric-host base URL
gets its scheme swapped, and a stored non-empty credential becomes the sole
`token.<value>` subprotocol. -/
theorem connect_url_and_subprotocol_witness :
    wsTarget "http://192.168.1.5:8090" =
      "ws" ++ String.mk (("http://192.168.1.5:8090" : String).data.drop 4) ++ "/ws/state" ∧
    wsProtocols true (some "secret") = some ["token." ++ "secret"] :=
  ⟨connect_url_and_subprotocol.1 "http://192.168.1.5:8090" (by decide),
   connect_url_and_subprotocol.2.2.2.1 "secret" (by decide)⟩

/-- The credential-related state the 401 interceptor can see: the stored
`localStorage` token and the `AuthProvider`'s `isAuthenticated` React
state. -/
structure AuthSessionState where
  storedToken : Option String
  isAuthenticated : Bool
deriving DecidableEq, Repr

/-- The 401 branch of the axios response interceptor:
`localStorage.removeItem('token')` followed by a `console.log` — nothing
else; in particular the `AuthProvider` state is not touched (only
`logout()` calls `setIsAuthenticated(false)`, and nothing invokes it on a
401). -/
def on401 (s : AuthSessionState) : AuthSessionState :=
  { s with storedToken := none }

/-- Counterexample to claim C6: after a 401 with a stored token and an
authenticated session, the token is gone but `isAuthenticated` is still
`true` — the claim's "isAuthenticated becomes false" fails on the code. -/
theorem on401_keeps_isAuthenticated :
    ¬ ((on401 ⟨some "tok", true⟩).storedToken = none ∧
       (on401 ⟨some "tok", true⟩).isAuthenticated = false) := by decide

/-- Claim C6 as amended: on any 401 response the stored credential is
cleared, so a subsequent connect attempt carries no token subprotocol;
`isAuthenticated` is left unchanged by the interceptor (it only becomes
false through `logout()` or a reload that finds no stored token). -/
theorem on401_clears_token_only (s : AuthSessionState) :
    (on401 s).storedToken = none ∧
    (on401 s).isAuthenticated = s.isAuthenticated ∧
    (∀ isAuthRequired : Bool,
       wsProtocols isAuthRequired (on401 s).storedToken = none) := by
  refine ⟨rfl, rfl, ?_⟩
  intro r
  cases r <;> simp [wsProtocols, tokenForConnect, on401]

/-- Polling cadence of the availability prober (`CHECK_INTERVAL`,
`useApiAvailability.ts`), in milliseconds. -/
def CHECK_INTERVAL : Nat := 30000

/-- Minimum visible duration of one availability check
(`MIN_CHECK_DURATION`), in milliseconds. -/
def MIN_CHECK_DURATION : Nat := 5000

/-- `ensureMinCheckDuration`: with `elapsed` milliseconds gone since the
check started, wait the remainder up to `MIN_CHECK_DURATION` (nothing if
the probe already took at least that long). -/
def ensureMinCheckWait (elapsed : Nat) : Nat :=
  if elapsed < MIN_CHECK_DURATION then MIN_CHECK_DURATION - elapsed else 0

/-- Absolute time at which `checkApiAvailability` resolves when started at
`start` with a probe that answers (or fails) after `probeDur` milliseconds:
the probe await followed by the `ensureMinCheckDuration` await, on both the
success and the failure path. -/
def checkResolveTime (start probeDur : Nat) : Nat :=
  start + probeDur + ensureMinCheckWait probeDur

/-- `checkNow` is `await checkApiAvailability(); setupInterval();` — the
periodic interval is cleared only once the manual check has resolved. -/
def checkNowClearTime (start probeDur : Nat) : Nat :=
  checkResolveTime start probeDur

/-- The periodic fire scheduled by the `setupInterval` call inside
`checkNow`: a full `CHECK_INTERVAL` after the manual check resolved. -/
def checkNowNextFire (start probeDur : Nat) : Nat :=
  checkNowClearTime start probeDur + CHECK_INTERVAL

/-- Event-loop semantics of `setInterval`/`clearInterval`: a tick due at
`fireTime` runs iff the interval has not been cleared strictly before that
time. -/
def intervalFires (fireTime clearTime : Nat) : Bool :=
  decide (fireTime < clearTime)

/-- A check started at `start` whose probe takes `probeDur` is in flight at
time `t`. -/
def checkInFlight (start probeDur t : Nat) : Bool :=
  decide (start ≤ t ∧ t < checkResolveTime start probeDur)

/-- Counterexample to claim C8: a manual `checkNow()` starts at time 0 with
an instant probe, so it is in flight until 5000 ms and the interval is
cleared only at 5000 ms; a periodic tick already due at 1000 ms therefore
still fires, and at 2000 ms the manual check and the periodic check are in
flight at the same time — refuting "a periodic check and a manual check
never run at the same time". -/
theorem manual_and_periodic_checks_can_overlap :
    intervalFires 1000 (checkNowClearTime 0 0) = true ∧
    checkInFlight 0 0 2000 = true ∧
    checkInFlight 1000 0 2000 = true := by decide

/-- Claim C8 as amended: every availability check, manual or periodic,
successful or failed, resolves no earlier than `MIN_CHECK_DURATION` after
it started (exactly `start + max probeDur MIN_CHECK_DURATION`); every
manual `checkNow()` restarts the periodic interval timer, but only once the
manual check has resolved, scheduling the next periodic check a full
`CHECK_INTERVAL` after that point — a periodic tick already due during the
manual check's window may still run concurrently (see the
counterexample). -/
theorem availability_check_min_duration_and_restart (start probeDur : Nat) :
    start + MIN_CHECK_DURATION ≤ checkResolveTime start probeDur ∧
    checkResolveTime start probeDur = start + max probeDur MIN_CHECK_DURATION ∧
    checkNowClearTime start probeDur = checkResolveTime start probeDur ∧
    checkNowNextFire start probeDur = checkResolveTime start probeDur + CHECK_INTERVAL := by
  refine ⟨?_, ?_, rfl, rfl⟩ <;>
    · simp only [checkResolveTime, ensureMinCheckWait, MIN_CHECK_DURATION]
      split <;> omega

end BoneIO
